import Mathlib

set_option linter.unusedVariables false

/-!
Shallow embedding of src/script.js, the grid snake game engine.

The embedding covers the module level game state and the functions
initGame, spawnFood, generateObstacles, step, setDirection, startGame,
pauseGame, gameOver and the toggle change handlers.  DOM drawing,
setInterval scheduling (restartLoop, stopLoop) and the keyboard mapping
are glue around the engine and are not part of the state.

Conventions:
- JS coordinates are Int; Math.random based sampling is modelled by an
  arbitrary stream of natural number pairs reduced into the grid.
- The localStorage key snake_high is modelled by the field store; the
  number to string round trip of setItem and parseInt is the identity.
- The showMessage banner is tracked only for the gameOver reasons, as
  the value of type Option OverReason.
-/

/-- Grid configuration: COLS and ROWS are computed from the canvas size in
the script and are fixed for a whole process. -/
structure Cfg where
  COLS : Int
  ROWS : Int
deriving DecidableEq, Repr

/-- One grid cell, the JS object with integer fields x and y. -/
structure Cell where
  x : Int
  y : Int
deriving DecidableEq, Repr

/-- A stream of random draws; entry i models the pair of Math.random calls
of loop pass i inside one placement call. -/
abbrev Rng := Nat → Nat × Nat

/-- BASE_SPEED from script.js: base ms per step. -/
def BASE_SPEED : Int := 140

/-- SPEED_STEP from script.js: ms decrease per level. -/
def SPEED_STEP : Int := 10

/-- POINTS_PER_LEVEL from script.js. -/
def POINTS_PER_LEVEL : Nat := 5

/-- OBSTACLE_COUNT_BY_LEVEL from script.js. -/
def OBSTACLE_COUNT_BY_LEVEL : Nat := 1

/-- The three gameOver reasons of script.js: wall maps to the message text
Hit the wall, selfHit to You bit yourself, obstacle to Hit an obstacle. -/
inductive OverReason
  | wall
  | selfHit
  | obstacle
deriving DecidableEq, Repr

/-- The module level mutable bindings of script.js that form the engine
state, after the first assignment of each: snake, dir, food, obstacles,
score, highscore, level, stepInterval, running, paused, plus the two
checkbox inputs and the persisted localStorage value (store). -/
structure GameState where
  snake : List Cell
  dir : Cell
  food : Cell
  obstacles : List Cell
  score : Nat
  highscore : Nat
  store : Nat
  level : Nat
  stepInterval : Int
  running : Bool
  paused : Bool
  wrapChecked : Bool
  obstaclesChecked : Bool
  banner : Option OverReason
deriving DecidableEq, Repr

/-- The membership tests of script.js written as some over a list, for
example snake.some of the pointwise coordinate comparison with c. -/
def collides (cells : List Cell) (c : Cell) : Bool :=
  cells.any (fun s => decide (s.x = c.x) && decide (s.y = c.y))

/-- Models Math.floor of Math.random times COLS (and ROWS): an arbitrary
pair of naturals reduced into the grid.  For positive dimensions the
result ranges over exactly the in bounds cells. -/
def sampleCell (cfg : Cfg) (r : Nat × Nat) : Cell :=
  ⟨(r.1 : Int) % cfg.COLS, (r.2 : Int) % cfg.ROWS⟩

/-- The acceptance test of the spawnFood loop: the sampled cell collides
with neither the snake nor the obstacles. -/
def freeForFood (snake obstacles : List Cell) (c : Cell) : Bool :=
  !collides snake c && !collides obstacles c

/-- The while loop of spawnFood: tries counts the loop passes already made
(it indexes the random stream), fuel is 500 minus tries.  On exhaustion the
fallback cell is the origin. -/
def spawnLoop (cfg : Cfg) (rng : Rng) (snake obstacles : List Cell) :
    Nat → Nat → Cell
  | _, 0 => ⟨0, 0⟩
  | tries, fuel + 1 =>
    let c := sampleCell cfg (rng tries)
    if freeForFood snake obstacles c then c
    else spawnLoop cfg rng snake obstacles (tries + 1) fuel

/-- spawnFood from script.js, with the obstacles binding already holding a
list.  The undefined case of the binding is spawnFoodJS below. -/
def spawnFood (cfg : Cfg) (rng : Rng) (snake obstacles : List Cell) : Cell :=
  spawnLoop cfg rng snake obstacles 0 500

/-- The while loop of generateObstacles: acc is newObs.  Note the source
checks a candidate only against snake, food and the old obstacles list,
not against the cells already accepted into newObs. -/
def genObsLoop (cfg : Cfg) (rng : Rng) (snake : List Cell) (food : Cell)
    (obstacles : List Cell) (count : Nat) : Nat → Nat → List Cell → List Cell
  | _, 0, acc => acc
  | tries, fuel + 1, acc =>
    if acc.length < count then
      let c := sampleCell cfg (rng tries)
      if collides snake c || (decide (food.x = c.x) && decide (food.y = c.y)) ||
          collides obstacles c then
        genObsLoop cfg rng snake food obstacles count (tries + 1) fuel acc
      else
        genObsLoop cfg rng snake food obstacles count (tries + 1) fuel (acc ++ [c])
    else acc

/-- generateObstacles from script.js: append the accepted cells. -/
def generateObstacles (cfg : Cfg) (rng : Rng) (snake : List Cell) (food : Cell)
    (obstacles : List Cell) (count : Nat) : List Cell :=
  obstacles ++ genObsLoop cfg rng snake food obstacles count 0 1000 []

/-- Math.max 30 of BASE_SPEED minus level minus one times SPEED_STEP, the
stepInterval recomputation in the level up branch of step. -/
def speedFor (level : Nat) : Int :=
  max 30 (BASE_SPEED - ((level : Int) - 1) * SPEED_STEP)

/-- snake at index zero.  The engine never reads the head of an empty
snake (the length is always at least one); the default of the empty case
is never relevant to a reachable state. -/
def headCell : List Cell → Cell
  | [] => ⟨0, 0⟩
  | c :: _ => c

/-- The unwrapped new head: old head plus the direction delta. -/
def rawHead (s : GameState) : Cell :=
  ⟨(headCell s.snake).x + s.dir.x, (headCell s.snake).y + s.dir.y⟩

/-- The wrap branch of step: the JS rem operator (truncating, hence
Int.tmod) applied to the coordinate plus the grid dimension. -/
def wrapCell (cfg : Cfg) (c : Cell) : Cell :=
  ⟨Int.tmod (c.x + cfg.COLS) cfg.COLS, Int.tmod (c.y + cfg.ROWS) cfg.ROWS⟩

/-- The wall test of step: some coordinate below zero or at least the
grid dimension. -/
def outsideGrid (cfg : Cfg) (c : Cell) : Bool :=
  decide (c.x < 0) || decide (cfg.COLS ≤ c.x) ||
    decide (c.y < 0) || decide (cfg.ROWS ≤ c.y)

/-- The new head cell a step would evaluate: wrapped when the wrap toggle
is checked, otherwise the raw cell. -/
def newHeadOf (cfg : Cfg) (s : GameState) : Cell :=
  if s.wrapChecked then wrapCell cfg (rawHead s) else rawHead s

/-- gameOver from script.js: running becomes false; stopLoop is scheduler
glue; showMessage displays the reason banner. -/
def gameOver (s : GameState) (r : OverReason) : GameState :=
  { s with running := false, banner := some r }

/-- The tail of step after the collision checks: unshift the new head,
then either the food branch (score, spawnFood, possible level up with
speed recomputation and obstacle generation, highscore update with
persistence) or pop the tail.  restartLoop and the DOM writes are glue. -/
def moveApply (cfg : Cfg) (fR oR : Rng) (s : GameState) (newHead : Cell) :
    GameState :=
  let snake1 := newHead :: s.snake
  if newHead = s.food then
    let score1 := s.score + 1
    let food1 := spawnFood cfg fR snake1 s.obstacles
    let s1 :=
      if score1 % POINTS_PER_LEVEL = 0 then
        { s with
          snake := snake1
          food := food1
          score := score1
          level := s.level + 1
          stepInterval := speedFor (s.level + 1)
          obstacles :=
            if s.obstaclesChecked then
              generateObstacles cfg oR snake1 food1 s.obstacles
                OBSTACLE_COUNT_BY_LEVEL
            else s.obstacles }
      else { s with snake := snake1, food := food1, score := score1 }
    if score1 > s1.highscore then { s1 with highscore := score1, store := score1 }
    else s1
  else { s with snake := snake1.dropLast }

/-- The self and obstacle collision checks of step, then the move. -/
def stepChecks (cfg : Cfg) (fR oR : Rng) (s : GameState) (newHead : Cell) :
    GameState :=
  if collides s.snake newHead then gameOver s OverReason.selfHit
  else if collides s.obstacles newHead then gameOver s OverReason.obstacle
  else moveApply cfg fR oR s newHead

/-- step from script.js: no op unless running and not paused; wall wrap or
wall collision; then the collision checks and the move. -/
def step (cfg : Cfg) (fR oR : Rng) (s : GameState) : GameState :=
  if !s.running || s.paused then s
  else if s.wrapChecked then
    stepChecks cfg fR oR s (wrapCell cfg (rawHead s))
  else if outsideGrid cfg (rawHead s) then gameOver s OverReason.wall
  else stepChecks cfg fR oR s (rawHead s)

/-- setDirection from script.js: rejected (no op) when the argument is the
exact reverse or the same as the CURRENT dir binding, otherwise dir is
replaced at once. -/
def setDirection (s : GameState) (newDir : Cell) : GameState :=
  if (decide (newDir.x = -s.dir.x) && decide (newDir.y = -s.dir.y)) ||
      (decide (newDir.x = s.dir.x) && decide (newDir.y = s.dir.y)) then s
  else { s with dir := newDir }

/-- startGame from script.js: when not running, set running, clear paused,
hide the banner; restartLoop is scheduler glue.  It performs no reset. -/
def startGame (s : GameState) : GameState :=
  if !s.running then { s with running := true, paused := false, banner := none }
  else s

/-- pauseGame from script.js: toggles paused while running.  Its
showMessage text is pause UI, not the game over banner, and not tracked. -/
def pauseGame (s : GameState) : GameState :=
  if !s.running then s else { s with paused := !s.paused }

/-- The change handler of the wrap toggle: no special action. -/
def setWrapChecked (s : GameState) (b : Bool) : GameState :=
  { s with wrapChecked := b }

/-- The change handler of the obstacles toggle: unchecking clears the
obstacle list at once. -/
def setObstaclesChecked (s : GameState) (b : Bool) : GameState :=
  if b then { s with obstaclesChecked := b }
  else { s with obstaclesChecked := b, obstacles := [] }

/-- Math.floor of COLS over two and ROWS over two: the starting cell. -/
def centerCell (cfg : Cfg) : Cell :=
  ⟨cfg.COLS / 2, cfg.ROWS / 2⟩

/-- initGame from script.js with the obstacles binding already holding a
list.  The source calls spawnFood BEFORE the assignment obstacles = [],
so food placement runs against the previous obstacle list; highscore is
then read back from the persistence store (parseInt of the stored value,
an absent value read as zero). -/
def initGame (cfg : Cfg) (rng : Rng) (prevObstacles : List Cell) (store : Nat)
    (wrapB obstaclesB : Bool) : GameState :=
  let snake0 := [centerCell cfg]
  let food0 := spawnFood cfg rng snake0 prevObstacles
  { snake := snake0
    dir := ⟨1, 0⟩
    food := food0
    obstacles := []
    score := 0
    highscore := store
    store := store
    level := 1
    stepInterval := BASE_SPEED
    running := false
    paused := false
    wrapChecked := wrapB
    obstaclesChecked := obstaclesB
    banner := none }

/-- The JS failure surfaced by reading a member of undefined. -/
inductive JsError
  | typeError
deriving DecidableEq, Repr

/-- spawnFood with the module level obstacles binding possibly still
undefined (no assignment has run yet): the first loop pass evaluates
obstacles.some on undefined and throws a TypeError. -/
def spawnFoodJS (cfg : Cfg) (rng : Rng) (snake : List Cell)
    (obstacles : Option (List Cell)) : Except JsError Cell :=
  match obstacles with
  | none => Except.error JsError.typeError
  | some obs => Except.ok (spawnFood cfg rng snake obs)

/-- initGame as the script executes it, tracking that spawnFood runs while
the obstacles binding still holds its previous value: undefined (none) in
the load time call at the bottom of the script, the list of the previous
run afterwards.  A thrown TypeError aborts initGame before any of the
remaining assignments. -/
def initGameJS (cfg : Cfg) (rng : Rng) (prevObstacles : Option (List Cell))
    (store : Nat) (wrapB obstaclesB : Bool) : Except JsError GameState :=
  match spawnFoodJS cfg rng [centerCell cfg] prevObstacles with
  | Except.error e => Except.error e
  | Except.ok f =>
    Except.ok
      { snake := [centerCell cfg]
        dir := ⟨1, 0⟩
        food := f
        obstacles := []
        score := 0
        highscore := store
        store := store
        level := 1
        stepInterval := BASE_SPEED
        running := false
        paused := false
        wrapChecked := wrapB
        obstaclesChecked := obstaclesB
        banner := none }

/-- The serialized external events that reach the engine between ticks:
timer ticks, the key and button handlers, the restart sequence (initGame
then startGame) and the two toggle change handlers. -/
inductive Event where
  | tick (fR oR : Rng)
  | key (d : Cell)
  | pressStart
  | pressPause
  | restart (rng : Rng)
  | obsToggle (b : Bool)
  | wrapToggle (b : Bool)

/-- Apply one event to the engine state. -/
def applyEvent (cfg : Cfg) (s : GameState) : Event → GameState
  | Event.tick fR oR => step cfg fR oR s
  | Event.key d => setDirection s d
  | Event.pressStart => startGame s
  | Event.pressPause => pauseGame s
  | Event.restart rng =>
    startGame (initGame cfg rng s.obstacles s.store s.wrapChecked
      s.obstaclesChecked)
  | Event.obsToggle b => setObstaclesChecked s b
  | Event.wrapToggle b => setWrapChecked s b

/-- Run a list of events from a state. -/
def run (cfg : Cfg) (s : GameState) : List Event → GameState
  | [] => s
  | e :: es => run cfg (applyEvent cfg s e) es

/-- All states a trace of events passes through, the start included. -/
def statesOf (cfg : Cfg) (s : GameState) : List Event → List GameState
  | [] => [s]
  | e :: es => s :: statesOf cfg (applyEvent cfg s e) es

/-- The largest score field observed along a trace. -/
def maxScoreObserved (cfg : Cfg) (s : GameState) (es : List Event) : Nat :=
  ((statesOf cfg s es).map GameState.score).foldr max 0

/-- A state of the engine is reachable when some event trace from some
initial initGame state produces it. -/
def Reachable (cfg : Cfg) (s : GameState) : Prop :=
  ∃ rng prevObstacles store wrapB obstaclesB es,
    s = run cfg (initGame cfg rng prevObstacles store wrapB obstaclesB) es

/-- The positive modulo formula named by the spec, with the JS rem. -/
def posMod (v n : Int) : Int :=
  Int.tmod (Int.tmod v n + n) n

/-- Direction deltas actually produced by the keyboard handler. -/
def isUnitDir (d : Cell) : Bool :=
  decide (d = ⟨1, 0⟩) || decide (d = ⟨-1, 0⟩) ||
    decide (d = ⟨0, 1⟩) || decide (d = ⟨0, -1⟩)

/-- The invariant bundle maintained by every event. -/
def EngineInv (s : GameState) : Prop :=
  s.snake ≠ [] ∧ s.snake.Nodup ∧ s.stepInterval = speedFor s.level ∧
    1 ≤ s.level ∧ s.store = s.highscore ∧ s.score ≤ s.highscore

/-- A ten by ten grid, the grid of the spec scenarios. -/
def cfg10 : Cfg := ⟨10, 10⟩

/-- A constant random stream. -/
def rngConst (p : Nat × Nat) : Rng := fun _ => p

/-- A concrete mid run state on the ten by ten grid: one cell snake at the
center, moving right, food just ahead, engine running. -/
def demo : GameState :=
  { snake := [⟨5, 5⟩]
    dir := ⟨1, 0⟩
    food := ⟨6, 5⟩
    obstacles := []
    score := 0
    highscore := 0
    store := 0
    level := 1
    stepInterval := 140
    running := true
    paused := false
    wrapChecked := false
    obstaclesChecked := false
    banner := none }

/-- The demo state moved to the right wall with the food elsewhere and the
wrap toggle checked. -/
def demoWrap : GameState :=
  { demo with snake := [⟨9, 5⟩], food := ⟨0, 9⟩, wrapChecked := true }

/-! Basic lemmas about the membership test and the game over transition. -/

theorem collides_iff (l : List Cell) (c : Cell) : collides l c = true ↔ c ∈ l := by
  simp only [collides, List.any_eq_true, Bool.and_eq_true, decide_eq_true_eq]
  constructor
  · rintro ⟨s, hs, hx, hy⟩
    cases s
    cases c
    simp_all
  · intro h
    exact ⟨c, h, rfl, rfl⟩

theorem collides_eq_false_iff (l : List Cell) (c : Cell) :
    collides l c = false ↔ c ∉ l := by
  rw [← collides_iff l c]
  cases collides l c <;> simp

theorem gameOver_running (s : GameState) (r : OverReason) :
    (gameOver s r).running = false := rfl

theorem gameOver_fields (s : GameState) (r : OverReason) :
    (gameOver s r).snake = s.snake ∧ (gameOver s r).dir = s.dir ∧
    (gameOver s r).food = s.food ∧ (gameOver s r).obstacles = s.obstacles ∧
    (gameOver s r).score = s.score ∧ (gameOver s r).highscore = s.highscore ∧
    (gameOver s r).store = s.store ∧ (gameOver s r).level = s.level ∧
    (gameOver s r).stepInterval = s.stepInterval ∧
    (gameOver s r).paused = s.paused ∧
    (gameOver s r).wrapChecked = s.wrapChecked ∧
    (gameOver s r).obstaclesChecked = s.obstaclesChecked ∧
    (gameOver s r).banner = some r :=
  ⟨rfl, rfl, rfl, rfl, rfl, rfl, rfl, rfl, rfl, rfl, rfl, rfl, rfl⟩

/-! Shape lemmas for the move tail of step. -/

theorem moveApply_flags (cfg : Cfg) (fR oR : Rng) (s : GameState) (nh : Cell) :
    (moveApply cfg fR oR s nh).running = s.running ∧
    (moveApply cfg fR oR s nh).paused = s.paused ∧
    (moveApply cfg fR oR s nh).dir = s.dir ∧
    (moveApply cfg fR oR s nh).wrapChecked = s.wrapChecked ∧
    (moveApply cfg fR oR s nh).obstaclesChecked = s.obstaclesChecked ∧
    (moveApply cfg fR oR s nh).banner = s.banner := by
  simp only [moveApply]
  repeat' split
  all_goals exact ⟨rfl, rfl, rfl, rfl, rfl, rfl⟩

theorem moveApply_snake (cfg : Cfg) (fR oR : Rng) (s : GameState) (nh : Cell) :
    (moveApply cfg fR oR s nh).snake =
      if nh = s.food then nh :: s.snake else (nh :: s.snake).dropLast := by
  simp only [moveApply]
  repeat' split
  all_goals simp_all

theorem moveApply_score (cfg : Cfg) (fR oR : Rng) (s : GameState) (nh : Cell) :
    (moveApply cfg fR oR s nh).score =
      if nh = s.food then s.score + 1 else s.score := by
  simp only [moveApply]
  repeat' split
  all_goals simp_all

theorem moveApply_level (cfg : Cfg) (fR oR : Rng) (s : GameState) (nh : Cell) :
    (moveApply cfg fR oR s nh).level =
      if nh = s.food ∧ (s.score + 1) % POINTS_PER_LEVEL = 0 then s.level + 1
      else s.level := by
  simp only [moveApply]
  repeat' split
  all_goals simp_all

theorem moveApply_interval (cfg : Cfg) (fR oR : Rng) (s : GameState) (nh : Cell) :
    (moveApply cfg fR oR s nh).stepInterval =
      if nh = s.food ∧ (s.score + 1) % POINTS_PER_LEVEL = 0 then
        speedFor (s.level + 1)
      else s.stepInterval := by
  simp only [moveApply]
  repeat' split
  all_goals simp_all

theorem moveApply_high (cfg : Cfg) (fR oR : Rng) (s : GameState) (nh : Cell) :
    (moveApply cfg fR oR s nh).highscore =
      if nh = s.food then max s.highscore (s.score + 1) else s.highscore := by
  simp only [moveApply]
  repeat' split
  all_goals simp_all
  all_goals omega

theorem moveApply_store (cfg : Cfg) (fR oR : Rng) (s : GameState) (nh : Cell) :
    (moveApply cfg fR oR s nh).store =
      if nh = s.food ∧ s.highscore < s.score + 1 then s.score + 1 else s.store := by
  simp only [moveApply]
  repeat' split
  all_goals simp_all

/-! Case analysis of one step. -/

theorem step_idle (cfg : Cfg) (fR oR : Rng) (s : GameState)
    (h : s.running = false ∨ s.paused = true) :
    step cfg fR oR s = s := by
  rcases h with h | h <;> simp [step, h]

theorem step_wall (cfg : Cfg) (fR oR : Rng) (s : GameState)
    (h1 : s.running = true) (h2 : s.paused = false)
    (h3 : s.wrapChecked = false) (h4 : outsideGrid cfg (rawHead s) = true) :
    step cfg fR oR s = gameOver s OverReason.wall := by
  simp [step, h1, h2, h3, h4]

theorem step_checks_eq (cfg : Cfg) (fR oR : Rng) (s : GameState)
    (h1 : s.running = true) (h2 : s.paused = false)
    (h3 : s.wrapChecked = true ∨ outsideGrid cfg (rawHead s) = false) :
    step cfg fR oR s = stepChecks cfg fR oR s (newHeadOf cfg s) := by
  rcases h3 with h3 | h3
  · simp [step, newHeadOf, h1, h2, h3]
  · cases hw : s.wrapChecked <;> simp [step, newHeadOf, h1, h2, h3, hw]

theorem stepChecks_self (cfg : Cfg) (fR oR : Rng) (s : GameState) (nh : Cell)
    (h : collides s.snake nh = true) :
    stepChecks cfg fR oR s nh = gameOver s OverReason.selfHit := by
  simp [stepChecks, h]

theorem stepChecks_obstacle (cfg : Cfg) (fR oR : Rng) (s : GameState) (nh : Cell)
    (h1 : collides s.snake nh = false) (h2 : collides s.obstacles nh = true) :
    stepChecks cfg fR oR s nh = gameOver s OverReason.obstacle := by
  simp [stepChecks, h1, h2]

theorem stepChecks_move (cfg : Cfg) (fR oR : Rng) (s : GameState) (nh : Cell)
    (h1 : collides s.snake nh = false) (h2 : collides s.obstacles nh = false) :
    stepChecks cfg fR oR s nh = moveApply cfg fR oR s nh := by
  simp [stepChecks, h1, h2]

/-- A step that leaves the engine running went through the move tail, with
both collision tests false and the wall test passed. -/
theorem step_survive (cfg : Cfg) (fR oR : Rng) (s : GameState)
    (h1 : s.running = true) (h2 : s.paused = false)
    (h3 : (step cfg fR oR s).running = true) :
    collides s.snake (newHeadOf cfg s) = false ∧
    collides s.obstacles (newHeadOf cfg s) = false ∧
    (s.wrapChecked = true ∨ outsideGrid cfg (rawHead s) = false) ∧
    step cfg fR oR s = moveApply cfg fR oR s (newHeadOf cfg s) := by
  have hwall : s.wrapChecked = true ∨ outsideGrid cfg (rawHead s) = false := by
    by_contra hc
    push_neg at hc
    obtain ⟨hw, ho⟩ := hc
    have hw2 : s.wrapChecked = false := by
      cases hv : s.wrapChecked
      · rfl
      · exact absurd hv hw
    have ho2 : outsideGrid cfg (rawHead s) = true := by
      cases hv : outsideGrid cfg (rawHead s)
      · exact absurd hv ho
      · rfl
    rw [step_wall cfg fR oR s h1 h2 hw2 ho2] at h3
    exact absurd h3 (by simp [gameOver_running])
  have hck := step_checks_eq cfg fR oR s h1 h2 hwall
  have hs : collides s.snake (newHeadOf cfg s) = false := by
    by_contra hc
    rw [Bool.not_eq_false] at hc
    rw [hck, stepChecks_self cfg fR oR s _ hc] at h3
    exact absurd h3 (by simp [gameOver_running])
  have hobs : collides s.obstacles (newHeadOf cfg s) = false := by
    by_contra hc
    rw [Bool.not_eq_false] at hc
    rw [hck, stepChecks_obstacle cfg fR oR s _ hs hc] at h3
    exact absurd h3 (by simp [gameOver_running])
  exact ⟨hs, hobs, hwall, by rw [hck, stepChecks_move cfg fR oR s _ hs hobs]⟩

/-! Arithmetic facts about the JS rem based wrap. -/

theorem tmod_neg_one (n : Int) (hn : 2 ≤ n) : Int.tmod (-1) n = -1 := by
  obtain ⟨k, rfl⟩ := Int.eq_ofNat_of_zero_le (by omega : (0 : Int) ≤ n)
  have hk : 2 ≤ k := by exact_mod_cast hn
  show Int.tmod (Int.negSucc 0) (Int.ofNat k) = -1
  simp only [Int.tmod]
  rw [Nat.mod_eq_of_lt (by omega : 1 < k)]
  rfl

/-- On the raw coordinates a step can produce (one move from an in bounds
coordinate), the wrap computation of the source equals the positive modulo
formula of the spec. -/
theorem wrap_eq_posMod (n v : Int) (hn : 0 < n) (hv1 : -1 ≤ v) (hv2 : v ≤ n) :
    Int.tmod (v + n) n = posMod v n := by
  rcases (by omega : 0 ≤ v ∨ v = -1) with hv | hv
  · have e1 : Int.tmod v n = v % n := Int.tmod_eq_emod hv (by omega)
    have e2 : Int.tmod (v + n) n = (v + n) % n :=
      Int.tmod_eq_emod (by omega) (by omega)
    have hemod : 0 ≤ v % n := Int.emod_nonneg v (by omega)
    unfold posMod
    rw [e1]
    have e3 : Int.tmod (v % n + n) n = (v % n + n) % n :=
      Int.tmod_eq_emod (by omega) (by omega)
    rw [e2, e3]
    conv_lhs => rw [show v + n = v + n * 1 by ring]
    rw [Int.add_mul_emod_self_left]
    conv_rhs => rw [show v % n + n = v % n + n * 1 by ring]
    rw [Int.add_mul_emod_self_left, Int.emod_emod_of_dvd v dvd_rfl]
  · subst hv
    rcases (by omega : n = 1 ∨ 2 ≤ n) with h1 | h1
    · subst h1
      decide
    · unfold posMod
      rw [tmod_neg_one n h1]

/-- The wrapped coordinate lies inside the grid dimension. -/
theorem wrap_bounds (n v : Int) (hn : 0 < n) (hv1 : -1 ≤ v) (hv2 : v ≤ n) :
    0 ≤ Int.tmod (v + n) n ∧ Int.tmod (v + n) n < n := by
  rw [Int.tmod_eq_emod (by omega) (by omega)]
  exact ⟨Int.emod_nonneg _ (by omega), Int.emod_lt_of_pos _ hn⟩

/-- A coordinate already inside the grid is unchanged by the wrap. -/
theorem wrap_fixed (n v : Int) (hn : 0 < n) (hv1 : 0 ≤ v) (hv2 : v < n) :
    Int.tmod (v + n) n = v := by
  rw [Int.tmod_eq_emod (by omega) (by omega)]
  conv_lhs => rw [show v + n = v + n * 1 by ring]
  rw [Int.add_mul_emod_self_left]
  exact Int.emod_eq_of_lt hv1 hv2

/-- Crossing the high edge lands on coordinate zero. -/
theorem wrap_high_edge (n : Int) (hn : 0 < n) : Int.tmod (n + n) n = 0 := by
  rw [Int.tmod_eq_emod (by omega) (by omega)]
  conv_lhs => rw [show n + n = 0 + n * 2 by ring]
  rw [Int.add_mul_emod_self_left]
  exact Int.emod_eq_of_lt le_rfl hn

/-- Crossing the low edge lands on the last coordinate. -/
theorem wrap_low_edge (n : Int) (hn : 0 < n) : Int.tmod (-1 + n) n = n - 1 := by
  rw [Int.tmod_eq_emod (by omega) (by omega)]
  rw [show -1 + n = n - 1 by ring]
  exact Int.emod_eq_of_lt (by omega) (by omega)

/-! The spawnFood loop. -/

/-- If some pass inside the fuel window samples a free cell, the loop
result is a free cell (the first free sample). -/
theorem spawnLoop_free (cfg : Cfg) (rng : Rng) (snake obstacles : List Cell) :
    ∀ fuel tries,
      (∃ j, tries ≤ j ∧ j < tries + fuel ∧
        freeForFood snake obstacles (sampleCell cfg (rng j)) = true) →
      freeForFood snake obstacles
        (spawnLoop cfg rng snake obstacles tries fuel) = true := by
  intro fuel
  induction fuel with
  | zero =>
    rintro tries ⟨j, hj1, hj2, _⟩
    omega
  | succ m ih =>
    rintro tries ⟨j, hj1, hj2, hfree⟩
    simp only [spawnLoop]
    split
    · assumption
    · rename_i hnot
      apply ih (tries + 1)
      refine ⟨j, ?_, by omega, hfree⟩
      rcases Nat.eq_or_lt_of_le hj1 with he | hl
      · subst he
        exact absurd hfree hnot
      · omega

/-- If every pass inside the fuel window samples an occupied cell, the
loop falls back to the origin. -/
theorem spawnLoop_exhaust (cfg : Cfg) (rng : Rng) (snake obstacles : List Cell) :
    ∀ fuel tries,
      (∀ j, tries ≤ j → j < tries + fuel →
        freeForFood snake obstacles (sampleCell cfg (rng j)) = false) →
      spawnLoop cfg rng snake obstacles tries fuel = ⟨0, 0⟩ := by
  intro fuel
  induction fuel with
  | zero =>
    intro tries _
    rfl
  | succ m ih =>
    intro tries hall
    simp only [spawnLoop]
    split
    · rename_i hfree
      rw [hall tries le_rfl (by omega)] at hfree
      exact absurd hfree (by simp)
    · exact ih (tries + 1) fun j h1 h2 => hall j (by omega) (by omega)

/-- The loop result is the fallback or a free cell. -/
theorem spawnLoop_result (cfg : Cfg) (rng : Rng) (snake obstacles : List Cell) :
    ∀ fuel tries,
      spawnLoop cfg rng snake obstacles tries fuel = ⟨0, 0⟩ ∨
      freeForFood snake obstacles
        (spawnLoop cfg rng snake obstacles tries fuel) = true := by
  intro fuel
  induction fuel with
  | zero =>
    intro tries
    exact Or.inl rfl
  | succ m ih =>
    intro tries
    simp only [spawnLoop]
    split
    · right
      assumption
    · exact ih (tries + 1)

/-! The engine invariant. -/

/-- Every step result has one of three shapes: unchanged, a game over of
the unchanged state, or the move tail applied to the evaluated head after
the snake collision test came back false. -/
theorem step_cases (cfg : Cfg) (fR oR : Rng) (s : GameState) :
    step cfg fR oR s = s ∨ (∃ r, step cfg fR oR s = gameOver s r) ∨
    (collides s.snake (newHeadOf cfg s) = false ∧
      collides s.obstacles (newHeadOf cfg s) = false ∧
      step cfg fR oR s = moveApply cfg fR oR s (newHeadOf cfg s)) := by
  unfold step
  split
  · exact Or.inl rfl
  · split
    · rename_i hw
      have hnh : newHeadOf cfg s = wrapCell cfg (rawHead s) := by
        unfold newHeadOf
        rw [if_pos hw]
      rw [← hnh]
      unfold stepChecks
      split
      · exact Or.inr (Or.inl ⟨_, rfl⟩)
      · rename_i hs
        split
        · exact Or.inr (Or.inl ⟨_, rfl⟩)
        · rename_i ho
          exact Or.inr (Or.inr ⟨Bool.not_eq_true _ |>.mp hs,
            Bool.not_eq_true _ |>.mp ho, rfl⟩)
    · rename_i hw
      have hw2 : s.wrapChecked = false := by
        cases hv : s.wrapChecked
        · rfl
        · exact absurd hv hw
      have hnh : newHeadOf cfg s = rawHead s := by
        unfold newHeadOf
        rw [if_neg (by simp [hw2])]
      rw [← hnh]
      split
      · exact Or.inr (Or.inl ⟨_, rfl⟩)
      · unfold stepChecks
        split
        · exact Or.inr (Or.inl ⟨_, rfl⟩)
        · rename_i hs
          split
          · exact Or.inr (Or.inl ⟨_, rfl⟩)
          · rename_i ho
            exact Or.inr (Or.inr ⟨Bool.not_eq_true _ |>.mp hs,
              Bool.not_eq_true _ |>.mp ho, rfl⟩)

theorem engineInv_init (cfg : Cfg) (rng : Rng) (prevObs : List Cell)
    (store : Nat) (w ob : Bool) :
    EngineInv (initGame cfg rng prevObs store w ob) := by
  refine ⟨by simp [initGame], by simp [initGame], ?_, ?_, rfl, ?_⟩
  · show BASE_SPEED = speedFor 1
    decide
  · exact le_rfl
  · exact Nat.zero_le _

theorem engineInv_moveApply (cfg : Cfg) (fR oR : Rng) (s : GameState) (nh : Cell)
    (h : EngineInv s) (hcol : collides s.snake nh = false) :
    EngineInv (moveApply cfg fR oR s nh) := by
  obtain ⟨h1, h2, h3, h4, h5, h6⟩ := h
  have hnotmem : nh ∉ s.snake := (collides_eq_false_iff _ _).mp hcol
  have hnodup : (nh :: s.snake).Nodup := List.nodup_cons.mpr ⟨hnotmem, h2⟩
  refine ⟨?_, ?_, ?_, ?_, ?_, ?_⟩
  · show (moveApply cfg fR oR s nh).snake ≠ []
    rw [moveApply_snake]
    split
    · simp
    · cases hs : s.snake with
      | nil => exact absurd hs h1
      | cons a l => simp [hs]
  · show (moveApply cfg fR oR s nh).snake.Nodup
    rw [moveApply_snake]
    split
    · exact hnodup
    · exact List.Nodup.sublist (List.dropLast_sublist _) hnodup
  · show (moveApply cfg fR oR s nh).stepInterval =
      speedFor (moveApply cfg fR oR s nh).level
    rw [moveApply_interval, moveApply_level]
    split
    · rfl
    · exact h3
  · show 1 ≤ (moveApply cfg fR oR s nh).level
    rw [moveApply_level]
    split <;> omega
  · show (moveApply cfg fR oR s nh).store = (moveApply cfg fR oR s nh).highscore
    rw [moveApply_store, moveApply_high]
    by_cases hf : nh = s.food
    · by_cases hh : s.highscore < s.score + 1
      · rw [if_pos ⟨hf, hh⟩, if_pos hf]
        omega
      · rw [if_neg (by tauto), if_pos hf]
        omega
    · rw [if_neg (by tauto), if_neg hf]
      exact h5
  · show (moveApply cfg fR oR s nh).score ≤ (moveApply cfg fR oR s nh).highscore
    rw [moveApply_score, moveApply_high]
    by_cases hf : nh = s.food
    · rw [if_pos hf, if_pos hf]
      omega
    · rw [if_neg hf, if_neg hf]
      exact h6

theorem engineInv_step (cfg : Cfg) (fR oR : Rng) (s : GameState)
    (h : EngineInv s) : EngineInv (step cfg fR oR s) := by
  rcases step_cases cfg fR oR s with he | ⟨r, he⟩ | ⟨hc, _, he⟩ <;> rw [he]
  · exact h
  · exact h
  · exact engineInv_moveApply cfg fR oR s _ h hc

theorem engineInv_setDirection (s : GameState) (d : Cell) (h : EngineInv s) :
    EngineInv (setDirection s d) := by
  unfold setDirection
  split
  · exact h
  · exact h

theorem engineInv_startGame (s : GameState) (h : EngineInv s) :
    EngineInv (startGame s) := by
  unfold startGame
  split
  · exact h
  · exact h

theorem engineInv_pauseGame (s : GameState) (h : EngineInv s) :
    EngineInv (pauseGame s) := by
  unfold pauseGame
  split
  · exact h
  · exact h

theorem engineInv_setObstaclesChecked (s : GameState) (b : Bool)
    (h : EngineInv s) : EngineInv (setObstaclesChecked s b) := by
  unfold setObstaclesChecked
  split
  · exact h
  · exact h

theorem engineInv_applyEvent (cfg : Cfg) (s : GameState) (e : Event)
    (h : EngineInv s) : EngineInv (applyEvent cfg s e) := by
  cases e with
  | tick fR oR => exact engineInv_step cfg fR oR s h
  | key d => exact engineInv_setDirection s d h
  | pressStart => exact engineInv_startGame s h
  | pressPause => exact engineInv_pauseGame s h
  | restart rng => exact engineInv_startGame _ (engineInv_init cfg rng _ _ _ _)
  | obsToggle b => exact engineInv_setObstaclesChecked s b h
  | wrapToggle b => exact h

theorem engineInv_run (cfg : Cfg) (s : GameState) (es : List Event)
    (h : EngineInv s) : EngineInv (run cfg s es) := by
  induction es generalizing s with
  | nil => exact h
  | cons e es ih => exact ih _ (engineInv_applyEvent cfg s e h)

theorem engineInv_reachable (cfg : Cfg) (s : GameState) (h : Reachable cfg s) :
    EngineInv s := by
  obtain ⟨rng, p, st, w, ob, es, rfl⟩ := h
  exact engineInv_run cfg _ es (engineInv_init cfg rng p st w ob)

/-! Speed formula facts. -/

theorem speedFor_floor (l : Nat) : 30 ≤ speedFor l := le_max_left _ _

theorem speedFor_mono (l1 l2 : Nat) (h : l1 ≤ l2) : speedFor l2 ≤ speedFor l1 := by
  unfold speedFor BASE_SPEED SPEED_STEP
  have hc : (l1 : Int) ≤ (l2 : Int) := by exact_mod_cast h
  apply max_le_max le_rfl
  omega

/-! Highscore bookkeeping along traces. -/

theorem maxScoreObserved_nil (cfg : Cfg) (s : GameState) :
    maxScoreObserved cfg s [] = s.score := by
  simp [maxScoreObserved, statesOf]

theorem maxScoreObserved_cons (cfg : Cfg) (s : GameState) (e : Event)
    (es : List Event) :
    maxScoreObserved cfg s (e :: es) =
      max s.score (maxScoreObserved cfg (applyEvent cfg s e) es) := by
  simp [maxScoreObserved, statesOf]

theorem score_le_maxScoreObserved (cfg : Cfg) (s : GameState) (es : List Event) :
    s.score ≤ maxScoreObserved cfg s es := by
  cases es with
  | nil => rw [maxScoreObserved_nil]
  | cons e es => rw [maxScoreObserved_cons]; exact le_max_left _ _

/-- After any single event, the highscore is the max of the old highscore
and the new score. -/
theorem applyEvent_high (cfg : Cfg) (s : GameState) (e : Event)
    (h : EngineInv s) :
    (applyEvent cfg s e).highscore =
      max s.highscore (applyEvent cfg s e).score := by
  obtain ⟨h1, h2, h3, h4, h5, h6⟩ := h
  cases e with
  | tick fR oR =>
    show (step cfg fR oR s).highscore = max s.highscore (step cfg fR oR s).score
    rcases step_cases cfg fR oR s with he | ⟨r, he⟩ | ⟨hc, _, he⟩ <;> rw [he]
    · omega
    · show s.highscore = max s.highscore s.score
      omega
    · rw [moveApply_high, moveApply_score]
      by_cases hf : newHeadOf cfg s = s.food
      · rw [if_pos hf, if_pos hf]
      · rw [if_neg hf, if_neg hf]
        omega
  | key d =>
    show (setDirection s d).highscore = max s.highscore (setDirection s d).score
    unfold setDirection
    split
    · omega
    · show s.highscore = max s.highscore s.score
      omega
  | pressStart =>
    show (startGame s).highscore = max s.highscore (startGame s).score
    unfold startGame
    split
    · show s.highscore = max s.highscore s.score
      omega
    · omega
  | pressPause =>
    show (pauseGame s).highscore = max s.highscore (pauseGame s).score
    unfold pauseGame
    split
    · omega
    · show s.highscore = max s.highscore s.score
      omega
  | restart rng =>
    show (startGame (initGame cfg rng s.obstacles s.store s.wrapChecked
      s.obstaclesChecked)).highscore = _
    unfold startGame initGame
    simp only
    rw [if_pos (by simp)]
    show s.store = max s.highscore 0
    omega
  | obsToggle b =>
    show (setObstaclesChecked s b).highscore =
      max s.highscore (setObstaclesChecked s b).score
    unfold setObstaclesChecked
    split
    · show s.highscore = max s.highscore s.score
      omega
    · show s.highscore = max s.highscore s.score
      omega
  | wrapToggle b =>
    show s.highscore = max s.highscore s.score
    omega

/-- Along any trace, the final highscore is the max of the starting
highscore and every score observed on the way. -/
theorem run_high (cfg : Cfg) (s : GameState) (es : List Event)
    (h : EngineInv s) :
    (run cfg s es).highscore = max s.highscore (maxScoreObserved cfg s es) := by
  induction es generalizing s with
  | nil =>
    rw [maxScoreObserved_nil]
    obtain ⟨_, _, _, _, _, h6⟩ := h
    show s.highscore = max s.highscore s.score
    omega
  | cons e es ih =>
    rw [maxScoreObserved_cons]
    show (run cfg (applyEvent cfg s e) es).highscore = _
    rw [ih _ (engineInv_applyEvent cfg s e h)]
    have he := applyEvent_high cfg s e h
    have hsc := score_le_maxScoreObserved cfg (applyEvent cfg s e) es
    obtain ⟨_, _, _, _, _, h6⟩ := h
    omega

/-- The highscore never decreases along a trace. -/
theorem run_high_mono (cfg : Cfg) (s : GameState) (es : List Event)
    (h : EngineInv s) : s.highscore ≤ (run cfg s es).highscore := by
  rw [run_high cfg s es h]
  exact le_max_left _ _

/-! Remaining helpers for the claim theorems. -/

theorem run_append (cfg : Cfg) (s : GameState) (es es2 : List Event) :
    run cfg s (es ++ es2) = run cfg (run cfg s es) es2 := by
  induction es generalizing s with
  | nil => rfl
  | cons e es ih => exact ih (applyEvent cfg s e)

theorem demo_reachable : Reachable cfg10 demo :=
  ⟨rngConst (6, 5), [], 0, false, false, [Event.pressStart], by decide⟩

/-- All the wrap facts about one coordinate, for the raw values one move
from an in bounds coordinate can produce. -/
theorem wrapCoord_spec (n v : Int) (hn : 0 < n) (hv1 : -1 ≤ v) (hv2 : v ≤ n) :
    Int.tmod (v + n) n = posMod v n ∧
    (0 ≤ Int.tmod (v + n) n ∧ Int.tmod (v + n) n < n) ∧
    (v = n → Int.tmod (v + n) n = 0) ∧
    (v = -1 → Int.tmod (v + n) n = n - 1) ∧
    (0 ≤ v → v < n → Int.tmod (v + n) n = v) := by
  refine ⟨wrap_eq_posMod n v hn hv1 hv2, wrap_bounds n v hn hv1 hv2, ?_, ?_, ?_⟩
  · intro he
    rw [he]
    exact wrap_high_edge n hn
  · intro he
    rw [he]
    exact wrap_low_edge n hn
  · intro hb1 hb2
    exact wrap_fixed n v hn hb1 hb2

/-- The unit direction test unfolded. -/
theorem isUnitDir_cases (d : Cell) (h : isUnitDir d = true) :
    d = ⟨1, 0⟩ ∨ d = ⟨-1, 0⟩ ∨ d = ⟨0, 1⟩ ∨ d = ⟨0, -1⟩ := by
  have h2 := h
  simp only [isUnitDir, Bool.or_eq_true, decide_eq_true_eq] at h2
  tauto

/-! Claim C1. -/

/-- C1 counterexample: starting from a running state whose tick consumes
direction right, two setDirection calls (down, then left) both pass the
reverse filter, and the next tick consumes left, the exact negation of
right: the snake head moves from the cell at x 6 back onto the cell at
x 5.  This refutes the claim that the direction consumed by consecutive
ticks is never reversed regardless of how many setDirection calls occur
between them. -/
theorem C1_counterexample :
    (setDirection (setDirection (step cfg10 (rngConst (2, 2)) (rngConst (3, 3))
        { demo with food := ⟨0, 9⟩ }) ⟨0, 1⟩) ⟨-1, 0⟩).dir =
      ⟨-1, 0⟩ ∧
    ({ demo with food := ⟨0, 9⟩ } : GameState).dir = ⟨1, 0⟩ ∧
    ((-1 : Int) = -(1 : Int) ∧ (0 : Int) = -(0 : Int)) ∧
    (step cfg10 (rngConst (2, 2)) (rngConst (3, 3))
      (setDirection (setDirection (step cfg10 (rngConst (2, 2)) (rngConst (3, 3))
        { demo with food := ⟨0, 9⟩ }) ⟨0, 1⟩) ⟨-1, 0⟩)).snake = [⟨5, 5⟩] := by
  decide

/-- C1 amended: a SINGLE setDirection call never produces the negation of
the current direction (and passing the current direction is a no op);
the original claim about consecutive ticks fails because the filter
compares against the latest dir binding, not the last consumed one. -/
theorem C1_amended (s : GameState) (d : Cell)
    (h : ¬(s.dir.x = -s.dir.x ∧ s.dir.y = -s.dir.y)) :
    setDirection s s.dir = s ∧
    ¬((setDirection s d).dir.x = -s.dir.x ∧ (setDirection s d).dir.y = -s.dir.y) := by
  constructor
  · simp [setDirection]
  · unfold setDirection
    split
    · exact h
    · rename_i hc
      rintro ⟨ha, hb⟩
      refine hc ?_
      simp only [Bool.or_eq_true, Bool.and_eq_true, decide_eq_true_eq]
      exact Or.inl ⟨ha, hb⟩

theorem C1_amended_witness :
    setDirection demo demo.dir = demo ∧
    ¬((setDirection demo ⟨0, 1⟩).dir.x = -demo.dir.x ∧
      (setDirection demo ⟨0, 1⟩).dir.y = -demo.dir.y) :=
  C1_amended demo ⟨0, 1⟩ (by decide)

/-! Claim C2. -/

/-- C2 counterexample: a tick from a two cell snake at the right wall ends
the run (running false), yet a plain startGame afterwards sets running
true again on the very same snake, and a further direction change plus
tick moves that snake: play of the ended run resumes without initGame.
This refutes the claim that GameOver is terminal for every operation
other than initialize. -/
theorem C2_counterexample :
    (step cfg10 (rngConst (2, 2)) (rngConst (3, 3))
      { demo with snake := [⟨9, 5⟩, ⟨8, 5⟩], food := ⟨0, 9⟩ }).running = false ∧
    (startGame (step cfg10 (rngConst (2, 2)) (rngConst (3, 3))
      { demo with snake := [⟨9, 5⟩, ⟨8, 5⟩], food := ⟨0, 9⟩ })).running = true ∧
    (startGame (step cfg10 (rngConst (2, 2)) (rngConst (3, 3))
      { demo with snake := [⟨9, 5⟩, ⟨8, 5⟩], food := ⟨0, 9⟩ })).snake =
      [⟨9, 5⟩, ⟨8, 5⟩] ∧
    (step cfg10 (rngConst (2, 2)) (rngConst (3, 3))
      (setDirection (startGame (step cfg10 (rngConst (2, 2)) (rngConst (3, 3))
        { demo with snake := [⟨9, 5⟩, ⟨8, 5⟩], food := ⟨0, 9⟩ })) ⟨0, -1⟩)).snake =
      [⟨9, 4⟩, ⟨9, 5⟩] := by
  decide

/-- C2 amended: gameOver only clears the running flag (and shows the
banner); the resulting state is NOT terminal: startGame on it sets
running true again without any reset, and pauseGame is a no op on it.
Only initGame rebuilds the state. -/
theorem C2_amended (s : GameState) (r : OverReason) :
    (gameOver s r).running = false ∧
    (gameOver s r).snake = s.snake ∧
    startGame (gameOver s r) =
      { s with running := true, paused := false, banner := none } ∧
    pauseGame (gameOver s r) = gameOver s r :=
  ⟨rfl, rfl, rfl, rfl⟩

/-! Claim C3. -/

/-- C3: the very first initGame call (load time, obstacles binding still
undefined) throws a TypeError inside spawnFood instead of completing, and
a later initGame runs food placement against the PREVIOUS obstacle list
rather than an empty one: with the previous obstacles occupying the first
sampled cell the placed food differs from the food an empty obstacle set
would produce. -/
theorem C3_first_init_crashes :
    initGameJS cfg10 (rngConst (2, 2)) none 0 false false =
      Except.error JsError.typeError ∧
    (initGameJS cfg10 (fun i => if i = 0 then (3, 4) else (5, 6))
        (some [⟨3, 4⟩]) 0 false false).toOption.map GameState.food =
      some ⟨5, 6⟩ ∧
    spawnFood cfg10 (fun i => if i = 0 then (3, 4) else (5, 6))
      [centerCell cfg10] [] = ⟨3, 4⟩ :=
  ⟨rfl, rfl, rfl⟩

/-! Claim C4. -/

set_option maxRecDepth 8000 in
/-- C4 counterexample: on the ten by ten grid with the snake on the origin
cell and no obstacles, the stream that always samples the origin exhausts
all 500 attempts and the fallback places the food ON the snake, although
free in bounds cells exist.  This refutes the disjointness guarantee
quantified over every random stream. -/
theorem C4_counterexample :
    spawnFood cfg10 (rngConst (0, 0)) [⟨0, 0⟩] [] = ⟨0, 0⟩ ∧
    collides [⟨0, 0⟩] (spawnFood cfg10 (rngConst (0, 0)) [⟨0, 0⟩] []) = true ∧
    freeForFood [⟨0, 0⟩] [] ⟨1, 0⟩ = true ∧
    outsideGrid cfg10 ⟨1, 0⟩ = false := by
  decide

/-- C4 amended: spawnFood makes at most 500 sampling attempts and falls
back to the origin on exhaustion; the placed food is disjoint from snake
and obstacles whenever SOME of the 500 sampled cells is free; a stream
whose 500 samples are all occupied yields the origin, which may itself be
occupied. -/
theorem C4_amended (cfg : Cfg) (rng : Rng) (snake obstacles : List Cell)
    (h : ∃ j, j < 500 ∧
      freeForFood snake obstacles (sampleCell cfg (rng j)) = true) :
    freeForFood snake obstacles (spawnFood cfg rng snake obstacles) = true ∧
    (∀ rng2 : Rng, spawnFood cfg rng2 snake obstacles = ⟨0, 0⟩ ∨
      freeForFood snake obstacles (spawnFood cfg rng2 snake obstacles) = true) ∧
    (∀ rng2 : Rng, (∀ j, j < 500 →
        freeForFood snake obstacles (sampleCell cfg (rng2 j)) = false) →
      spawnFood cfg rng2 snake obstacles = ⟨0, 0⟩) := by
  refine ⟨?_, ?_, ?_⟩
  · obtain ⟨j, hj, hfree⟩ := h
    exact spawnLoop_free cfg rng snake obstacles 500 0
      ⟨j, Nat.zero_le _, by omega, hfree⟩
  · intro rng2
    exact spawnLoop_result cfg rng2 snake obstacles 500 0
  · intro rng2 hall
    exact spawnLoop_exhaust cfg rng2 snake obstacles 500 0
      fun j h1 h2 => hall j (by omega)

theorem C4_amended_witness :
    freeForFood [⟨0, 0⟩] []
      (spawnFood cfg10 (rngConst (2, 2)) [⟨0, 0⟩] []) = true :=
  (C4_amended cfg10 (rngConst (2, 2)) [⟨0, 0⟩] []
    ⟨0, by decide, by decide⟩).1

/-! Claim C5. -/

/-- C5: in every reachable engine state the snake cells are pairwise
distinct; and a tick whose evaluated new head lies on any current snake
cell (the tail about to be vacated included, since the check runs before
the pop) ends the run as a self collision game over with the snake left
unchanged, never producing an overlapping snake. -/
theorem C5_snake_distinct (cfg : Cfg) (s : GameState) (h : Reachable cfg s) :
    s.snake.Nodup ∧
    (∀ fR oR : Rng, s.running = true → s.paused = false →
      (s.wrapChecked = true ∨ outsideGrid cfg (rawHead s) = false) →
      collides s.snake (newHeadOf cfg s) = true →
      step cfg fR oR s = gameOver s OverReason.selfHit ∧
      (step cfg fR oR s).snake = s.snake) := by
  refine ⟨(engineInv_reachable cfg s h).2.1, ?_⟩
  intro fR oR h1 h2 h3 hc
  have he := step_checks_eq cfg fR oR s h1 h2 h3
  rw [he, stepChecks_self cfg fR oR s _ hc]
  exact ⟨rfl, rfl⟩

theorem C5_witness :
    (run cfg10 (initGame cfg10 (rngConst (6, 5)) [] 0 false false)
      [Event.pressStart, Event.tick (rngConst (2, 2)) (rngConst (3, 3)),
        Event.key ⟨0, 1⟩, Event.key ⟨-1, 0⟩]).snake.Nodup ∧
    step cfg10 (rngConst (2, 2)) (rngConst (3, 3))
        (run cfg10 (initGame cfg10 (rngConst (6, 5)) [] 0 false false)
          [Event.pressStart, Event.tick (rngConst (2, 2)) (rngConst (3, 3)),
            Event.key ⟨0, 1⟩, Event.key ⟨-1, 0⟩]) =
      gameOver (run cfg10 (initGame cfg10 (rngConst (6, 5)) [] 0 false false)
          [Event.pressStart, Event.tick (rngConst (2, 2)) (rngConst (3, 3)),
            Event.key ⟨0, 1⟩, Event.key ⟨-1, 0⟩]) OverReason.selfHit := by
  have hr : Reachable cfg10
      (run cfg10 (initGame cfg10 (rngConst (6, 5)) [] 0 false false)
        [Event.pressStart, Event.tick (rngConst (2, 2)) (rngConst (3, 3)),
          Event.key ⟨0, 1⟩, Event.key ⟨-1, 0⟩]) :=
    ⟨rngConst (6, 5), [], 0, false, false, _, rfl⟩
  have hm := C5_snake_distinct cfg10 _ hr
  exact ⟨hm.1, (hm.2 (rngConst (2, 2)) (rngConst (3, 3)) (by decide) (by decide)
    (Or.inr (by decide)) (by decide)).1⟩

/-! Claim C6. -/

/-- C6: a tick that leaves the run alive grows the snake by exactly one
cell when the evaluated head equals the food, and keeps the length
unchanged otherwise (the pop balances the unshift). -/
theorem C6_length (cfg : Cfg) (fR oR : Rng) (s : GameState)
    (h0 : s.snake ≠ [])
    (h1 : s.running = true) (h2 : s.paused = false)
    (h3 : (step cfg fR oR s).running = true) :
    (step cfg fR oR s).snake.length =
      if newHeadOf cfg s = s.food then s.snake.length + 1
      else s.snake.length := by
  obtain ⟨_, _, _, he⟩ := step_survive cfg fR oR s h1 h2 h3
  rw [he, moveApply_snake]
  split
  · simp
  · simp [List.length_dropLast]

theorem C6_witness :
    (step cfg10 (rngConst (2, 2)) (rngConst (3, 3)) demo).snake.length =
      if newHeadOf cfg10 demo = demo.food then demo.snake.length + 1
      else demo.snake.length :=
  C6_length cfg10 (rngConst (2, 2)) (rngConst (3, 3)) demo
    (by decide) (by decide) (by decide) (by decide)

/-! Claim C7. -/

/-- C7: with wrap enabled, for an in bounds head and a unit direction the
evaluated head equals the positive modulo of the raw coordinates, stays
inside the grid, keeps the orthogonal coordinate, and a head leaving an
edge reappears on the opposite edge; with wrap disabled an out of bounds
move ends the run as a wall game over. -/
theorem C7_wrap_wall (cfg : Cfg) (fR oR : Rng) (s : GameState)
    (hC : 0 < cfg.COLS) (hR : 0 < cfg.ROWS)
    (h1 : s.running = true) (h2 : s.paused = false)
    (hin : outsideGrid cfg (headCell s.snake) = false)
    (hdir : isUnitDir s.dir = true) :
    (s.wrapChecked = true →
      newHeadOf cfg s =
        ⟨posMod (rawHead s).x cfg.COLS, posMod (rawHead s).y cfg.ROWS⟩ ∧
      outsideGrid cfg (newHeadOf cfg s) = false ∧
      (s.dir.y = 0 → (newHeadOf cfg s).y = (headCell s.snake).y) ∧
      (s.dir.x = 0 → (newHeadOf cfg s).x = (headCell s.snake).x) ∧
      ((rawHead s).x = cfg.COLS → (newHeadOf cfg s).x = 0) ∧
      ((rawHead s).x = -1 → (newHeadOf cfg s).x = cfg.COLS - 1) ∧
      ((rawHead s).y = cfg.ROWS → (newHeadOf cfg s).y = 0) ∧
      ((rawHead s).y = -1 → (newHeadOf cfg s).y = cfg.ROWS - 1)) ∧
    (s.wrapChecked = false → outsideGrid cfg (rawHead s) = true →
      step cfg fR oR s = gameOver s OverReason.wall) := by
  have hbounds : 0 ≤ (headCell s.snake).x ∧ (headCell s.snake).x < cfg.COLS ∧
      0 ≤ (headCell s.snake).y ∧ (headCell s.snake).y < cfg.ROWS := by
    simp only [outsideGrid, Bool.or_eq_false_iff, decide_eq_false_iff_not,
      not_lt, not_le] at hin
    exact ⟨hin.1.1.1, hin.1.1.2, hin.1.2, hin.2⟩
  obtain ⟨hx0, hx1, hy0, hy1⟩ := hbounds
  have hdrange : (-1 ≤ s.dir.x ∧ s.dir.x ≤ 1) ∧ (-1 ≤ s.dir.y ∧ s.dir.y ≤ 1) := by
    rcases isUnitDir_cases s.dir hdir with hd | hd | hd | hd <;> rw [hd] <;>
      exact ⟨⟨by decide, by decide⟩, by decide, by decide⟩
  obtain ⟨⟨hdx0, hdx1⟩, hdy0, hdy1⟩ := hdrange
  have hxspec := wrapCoord_spec cfg.COLS ((headCell s.snake).x + s.dir.x) hC
    (by omega) (by omega)
  have hyspec := wrapCoord_spec cfg.ROWS ((headCell s.snake).y + s.dir.y) hR
    (by omega) (by omega)
  have hrx : (rawHead s).x = (headCell s.snake).x + s.dir.x := rfl
  have hry : (rawHead s).y = (headCell s.snake).y + s.dir.y := rfl
  constructor
  · intro hw
    have hnh : newHeadOf cfg s = wrapCell cfg (rawHead s) := by
      unfold newHeadOf
      rw [if_pos hw]
    have hwx : (newHeadOf cfg s).x =
        Int.tmod ((headCell s.snake).x + s.dir.x + cfg.COLS) cfg.COLS := by
      rw [hnh]
      rfl
    have hwy : (newHeadOf cfg s).y =
        Int.tmod ((headCell s.snake).y + s.dir.y + cfg.ROWS) cfg.ROWS := by
      rw [hnh]
      rfl
    refine ⟨?_, ?_, ?_, ?_, ?_, ?_, ?_, ?_⟩
    · have hsplit : newHeadOf cfg s =
          ⟨(newHeadOf cfg s).x, (newHeadOf cfg s).y⟩ := rfl
      rw [hsplit, hwx, hwy, hrx, hry, hxspec.1, hyspec.1]
    · have hbx := hxspec.2.1
      have hby := hyspec.2.1
      simp only [outsideGrid, Bool.or_eq_false_iff, decide_eq_false_iff_not,
        not_lt, not_le, hwx, hwy]
      omega
    · intro hdy
      rw [hwy]
      have hfix := hyspec.2.2.2.2 (by omega) (by omega)
      omega
    · intro hdx
      rw [hwx]
      have hfix := hxspec.2.2.2.2 (by omega) (by omega)
      omega
    · intro hedge
      rw [hrx] at hedge
      rw [hwx]
      exact hxspec.2.2.1 hedge
    · intro hedge
      rw [hrx] at hedge
      rw [hwx]
      exact hxspec.2.2.2.1 hedge
    · intro hedge
      rw [hry] at hedge
      rw [hwy]
      exact hyspec.2.2.1 hedge
    · intro hedge
      rw [hry] at hedge
      rw [hwy]
      exact hyspec.2.2.2.1 hedge
  · intro hw hout
    exact step_wall cfg fR oR s h1 h2 hw hout

theorem C7_witness :
    (demoWrap.wrapChecked = true →
      newHeadOf cfg10 demoWrap =
        ⟨posMod (rawHead demoWrap).x cfg10.COLS,
          posMod (rawHead demoWrap).y cfg10.ROWS⟩ ∧
      outsideGrid cfg10 (newHeadOf cfg10 demoWrap) = false ∧
      (demoWrap.dir.y = 0 →
        (newHeadOf cfg10 demoWrap).y = (headCell demoWrap.snake).y) ∧
      (demoWrap.dir.x = 0 →
        (newHeadOf cfg10 demoWrap).x = (headCell demoWrap.snake).x) ∧
      ((rawHead demoWrap).x = cfg10.COLS → (newHeadOf cfg10 demoWrap).x = 0) ∧
      ((rawHead demoWrap).x = -1 →
        (newHeadOf cfg10 demoWrap).x = cfg10.COLS - 1) ∧
      ((rawHead demoWrap).y = cfg10.ROWS → (newHeadOf cfg10 demoWrap).y = 0) ∧
      ((rawHead demoWrap).y = -1 →
        (newHeadOf cfg10 demoWrap).y = cfg10.ROWS - 1)) ∧
    (demoWrap.wrapChecked = false →
      outsideGrid cfg10 (rawHead demoWrap) = true →
      step cfg10 (rngConst (2, 2)) (rngConst (3, 3)) demoWrap =
        gameOver demoWrap OverReason.wall) :=
  C7_wrap_wall cfg10 (rngConst (2, 2)) (rngConst (3, 3)) demoWrap
    (by decide) (by decide) (by decide) (by decide) (by decide) (by decide)

/-! Claim C8. -/

/-- C8: each food eaten increments the score by exactly one; the level
increments exactly when the new score is a multiple of POINTS_PER_LEVEL;
in every reachable state the tick interval equals the clamped linear
formula of the level, which is monotonically non increasing in the level
and floored at 30 ms. -/
theorem C8_score_level_speed (cfg : Cfg) (s : GameState) (h : Reachable cfg s) :
    s.stepInterval = speedFor s.level ∧
    (∀ l1 l2 : Nat, l1 ≤ l2 → speedFor l2 ≤ speedFor l1) ∧
    (∀ l : Nat, 30 ≤ speedFor l) ∧
    (∀ fR oR : Rng, s.running = true → s.paused = false →
      (step cfg fR oR s).running = true →
      ((newHeadOf cfg s = s.food →
        (step cfg fR oR s).score = s.score + 1 ∧
        (step cfg fR oR s).level =
          (if (s.score + 1) % POINTS_PER_LEVEL = 0 then s.level + 1
            else s.level) ∧
        (step cfg fR oR s).stepInterval =
          speedFor (step cfg fR oR s).level) ∧
      (newHeadOf cfg s ≠ s.food →
        (step cfg fR oR s).score = s.score ∧
        (step cfg fR oR s).level = s.level ∧
        (step cfg fR oR s).stepInterval = s.stepInterval))) := by
  have hi := engineInv_reachable cfg s h
  refine ⟨hi.2.2.1, speedFor_mono, speedFor_floor, ?_⟩
  intro fR oR h1 h2 h3
  obtain ⟨_, _, _, he⟩ := step_survive cfg fR oR s h1 h2 h3
  have hstepinv := engineInv_step cfg fR oR s hi
  constructor
  · intro hf
    refine ⟨?_, ?_, hstepinv.2.2.1⟩
    · rw [he, moveApply_score, if_pos hf]
    · rw [he, moveApply_level]
      by_cases hm : (s.score + 1) % POINTS_PER_LEVEL = 0
      · rw [if_pos ⟨hf, hm⟩, if_pos hm]
      · rw [if_neg (by tauto), if_neg hm]
  · intro hf
    refine ⟨?_, ?_, ?_⟩
    · rw [he, moveApply_score, if_neg hf]
    · rw [he, moveApply_level, if_neg (by tauto)]
    · rw [he, moveApply_interval, if_neg (by tauto)]

theorem C8_witness :
    demo.stepInterval = speedFor demo.level :=
  (C8_score_level_speed cfg10 demo demo_reachable).1

/-! Claim C9. -/

/-- C9 counterexample: when the persistence store already holds the value
seven from an earlier session, the very first initialize loads highscore
seven while the maximum score observed during the process lifetime is
still zero: the highscore does not equal the maximum score ever observed
across the process lifetime. -/
theorem C9_counterexample :
    (initGame cfg10 (rngConst (2, 2)) [] 7 false false).highscore = 7 ∧
    maxScoreObserved cfg10
      (initGame cfg10 (rngConst (2, 2)) [] 7 false false) [] = 0 ∧
    (initGame cfg10 (rngConst (2, 2)) [] 7 false false).highscore ≠
      maxScoreObserved cfg10
        (initGame cfg10 (rngConst (2, 2)) [] 7 false false) [] := by
  decide

/-- C9 amended: along every event trace from an initialize, the highscore
equals the max of the initially loaded persisted value and the maximum
score observed so far, and it is monotonically non decreasing (assuming
no external writer of the store). -/
theorem C9_high_monotone (cfg : Cfg) (rng : Rng) (prevObs : List Cell)
    (store : Nat) (w ob : Bool) (es es2 : List Event) :
    (run cfg (initGame cfg rng prevObs store w ob) es).highscore =
      max store
        (maxScoreObserved cfg (initGame cfg rng prevObs store w ob) es) ∧
    (run cfg (initGame cfg rng prevObs store w ob) es).highscore ≤
      (run cfg (initGame cfg rng prevObs store w ob) (es ++ es2)).highscore := by
  have h0 := engineInv_init cfg rng prevObs store w ob
  constructor
  · exact run_high cfg _ es h0
  · rw [run_append]
    exact run_high_mono cfg _ es2 (engineInv_run cfg _ es h0)

/-! Claim C10. -/

/-- C10: a run ending tick is atomic: snake, food, obstacles, score,
level, interval, highscore, store, direction and paused are exactly as
before the tick (the colliding head is never appended); only the running
flag changes, to false (the banner, pure UI, shows the reason). -/
theorem C10_atomic (cfg : Cfg) (fR oR : Rng) (s : GameState)
    (h1 : s.running = true) (h2 : s.paused = false)
    (h3 : (step cfg fR oR s).running = false) :
    (step cfg fR oR s).snake = s.snake ∧
    (step cfg fR oR s).food = s.food ∧
    (step cfg fR oR s).obstacles = s.obstacles ∧
    (step cfg fR oR s).score = s.score ∧
    (step cfg fR oR s).level = s.level ∧
    (step cfg fR oR s).stepInterval = s.stepInterval ∧
    (step cfg fR oR s).highscore = s.highscore ∧
    (step cfg fR oR s).store = s.store ∧
    (step cfg fR oR s).dir = s.dir ∧
    (step cfg fR oR s).paused = s.paused ∧
    (step cfg fR oR s).running = false := by
  rcases step_cases cfg fR oR s with he | ⟨r, he⟩ | ⟨_, _, he⟩
  · rw [he] at h3
    rw [h1] at h3
    exact Bool.noConfusion h3
  · rw [he]
    exact ⟨rfl, rfl, rfl, rfl, rfl, rfl, rfl, rfl, rfl, rfl, rfl⟩
  · rw [he] at h3
    rw [(moveApply_flags cfg fR oR s (newHeadOf cfg s)).1, h1] at h3
    exact Bool.noConfusion h3

theorem C10_witness :
    (step cfg10 (rngConst (2, 2)) (rngConst (3, 3))
      { demo with snake := [⟨9, 5⟩], food := ⟨0, 9⟩ }).snake =
      ({ demo with snake := [⟨9, 5⟩], food := ⟨0, 9⟩ } : GameState).snake ∧
    (step cfg10 (rngConst (2, 2)) (rngConst (3, 3))
      { demo with snake := [⟨9, 5⟩], food := ⟨0, 9⟩ }).score =
      ({ demo with snake := [⟨9, 5⟩], food := ⟨0, 9⟩ } : GameState).score ∧
    (step cfg10 (rngConst (2, 2)) (rngConst (3, 3))
      { demo with snake := [⟨9, 5⟩], food := ⟨0, 9⟩ }).running = false := by
  have hm := C10_atomic cfg10 (rngConst (2, 2)) (rngConst (3, 3))
    { demo with snake := [⟨9, 5⟩], food := ⟨0, 9⟩ }
    (by decide) (by decide) (by decide)
  exact ⟨hm.1, hm.2.2.2.1, hm.2.2.2.2.2.2.2.2.2.2⟩
